import Mathlib

/-!
Verification of the `exp-base-auth-stream` preset
(src/presets/exp-base-auth-stream.js) and of the config post-processing in
bin/bootstrap.js.

Byte buffers are `List ℕ`.  The stream cipher created by
`crypto.createCipheriv` / `crypto.createDecipheriv` (external library) is
modelled from the spec as a position-indexed keystream XORed onto the data:
this is exact for the CTR modes and captures precisely the properties the
protocol relies on (cipher/decipher with equal `(method, key, iv)` invert
each other byte-by-byte, and state advances by the number of bytes
processed).  `hmac` and `EVP_BytesToKey` live in src/utils (not shipped
here); HMAC-SHA1 is modelled from the spec as an arbitrary deterministic
function producing a 20-byte digest, carried as a parameter, and the key is
a parameter of the preset state (`_key`).
-/

namespace Blinksocks

/-- Modelled from the spec: the external cryptographic primitives.
`ks method key iv i` is the i-th keystream byte of the stream cipher
`createCipheriv(method, key, iv)`; `hmacSha1 key msg` is the HMAC-SHA1
digest (20 bytes) computed by `hmac('sha1', key, msg)` in src/utils. -/
structure Crypto where
  ks : String → List ℕ → List ℕ → ℕ → ℕ
  hmacSha1 : List ℕ → List ℕ → List ℕ

/-- `IV_LEN` from exp-base-auth-stream.js. -/
def IV_LEN : ℕ := 16

/-- `HMAC_LEN` from exp-base-auth-stream.js. -/
def HMAC_LEN : ℕ := 16

/-- The `ciphers` whitelist from exp-base-auth-stream.js. -/
def ciphers : List String :=
  ["aes-128-ctr", "aes-192-ctr", "aes-256-ctr",
   "aes-128-cfb", "aes-192-cfb", "aes-256-cfb",
   "camellia-128-cfb", "camellia-192-cfb", "camellia-256-cfb"]

/-- Modelled from the spec: `numberToBuffer(n, 1)` from src/utils renders a
number as a 1-byte big-endian buffer (`ALEN(1)` on the wire). -/
def numberToBuffer1 (n : ℕ) : List ℕ := [n % 256]

/-- `Buffer.prototype.readUInt16BE(0)` on a 2-byte buffer. -/
def readUInt16BE (l : List ℕ) : ℕ := 256 * l.headD 0 + (l.drop 1).headD 0

/-- JavaScript `buf.slice(0, -n)` as used in clientOut
(`encBuf.slice(0, -buffer.length)`): for `n = 0` the end index is `-0 = 0`
and the result is empty; otherwise the last `n` bytes are cut off. -/
def jsSliceZeroNeg (l : List ℕ) (n : ℕ) : List ℕ :=
  if n = 0 then [] else l.take (l.length - n)

/-- State of a node stream cipher object: algorithm name, key, iv and the
number of keystream bytes already consumed. -/
structure CState where
  name : String
  key : List ℕ
  iv : List ℕ
  pos : ℕ
deriving DecidableEq

/-- `crypto.createCipheriv(name, key, iv)` (and `createDecipheriv`):
a fresh stream-cipher object at keystream position 0. -/
def createCipheriv (name : String) (key iv : List ℕ) : CState :=
  { name := name, key := key, iv := iv, pos := 0 }

/-- The keystream segment of length `n` starting at the cipher state's
current position. -/
def ksSeg (C : Crypto) (c : CState) (n : ℕ) : List ℕ :=
  (List.range n).map (fun i => C.ks c.name c.key c.iv (c.pos + i))

/-- `cipher.update(buf)` (equally `decipher.update(buf)`): XOR the buffer
with the next keystream bytes and advance the position. -/
def cipherUpdate (C : Crypto) (c : CState) (buf : List ℕ) : List ℕ × CState :=
  (List.zipWith (fun a b => a ^^^ b) buf (ksSeg C c buf.length),
   { c with pos := c.pos + buf.length })

/-- The private state of one `ExpBaseAuthStreamPreset` instance
(fields `_isHandshakeDone`, `_host`, `_port`, `_cipherName`, `_key`,
`_cipher`, `_decipher`). -/
structure Preset where
  isHandshakeDone : Bool
  host : List ℕ
  port : List ℕ
  cipherName : String
  key : List ℕ
  cipher : Option CState
  decipher : Option CState
deriving DecidableEq

/-- Constructor on the client role (`__IS_CLIENT__`): records the
destination host bytes and 2-byte port buffer. -/
def clientPreset (method : String) (key host port : List ℕ) : Preset :=
  { isHandshakeDone := false, host := host, port := port,
    cipherName := method, key := key, cipher := none, decipher := none }

/-- Constructor on the server role: `_host`/`_port` stay null. -/
def serverPreset (method : String) (key : List ℕ) : Preset :=
  { isHandshakeDone := false, host := [], port := [],
    cipherName := method, key := key, cipher := none, decipher := none }

/-- Constructor validation: `method` must be in the `ciphers` whitelist,
otherwise `throw Error`. -/
def presetInit (isClient : Bool) (method : String) (key host port : List ℕ) :
    Option Preset :=
  if method ∈ ciphers then
    some (if isClient then clientPreset method key host port
          else serverPreset method key)
  else none

/-- Which `fail(...)` call fired inside `serverIn`:
`len1` = "unexpected buffer length_1" (chunk below 37 bytes),
`len2` = "unexpected buffer length_2" (chunk not longer than 35 + ALEN),
`badHmac` = "unexpected HMAC-SHA1". -/
inductive FailKind where
  | len1 : FailKind
  | len2 : FailKind
  | badHmac : FailKind
deriving DecidableEq

/-- Observable outcome of a `serverIn` call: a `fail(...)` event, a
`broadcast` of `SOCKET_CONNECT_TO_DST` carrying the destination host bytes,
port number and buffered data, or (post-handshake) the decrypted chunk
returned to the pipeline. -/
inductive SOut where
  | fail : FailKind → SOut
  | bcast : List ℕ → ℕ → List ℕ → SOut
  | next : List ℕ → SOut
deriving DecidableEq

/-- `clientOut({buffer})`.  The fresh random IV of the handshake branch is
made explicit as the `iv` argument.  `none` models a thrown TypeError
(`this._cipher` is null on the post-handshake path). -/
def clientOut (C : Crypto) (p : Preset) (iv buffer : List ℕ) :
    Option (Preset × List ℕ) :=
  if p.isHandshakeDone = false then
    let c0 := createCipheriv p.cipherName p.key iv
    let d0 := createCipheriv p.cipherName p.key iv
    let pr := cipherUpdate C c0
      (numberToBuffer1 p.host.length ++ p.host ++ p.port ++ buffer)
    let encBuf := pr.1
    let hmacEncAddr :=
      (C.hmacSha1 p.key (jsSliceZeroNeg encBuf buffer.length)).take HMAC_LEN
    some ({ p with isHandshakeDone := true,
                   cipher := some pr.2, decipher := some d0 },
          iv ++ hmacEncAddr ++ encBuf)
  else
    match p.cipher with
    | none => none
    | some c =>
      let pr := cipherUpdate C c buffer
      some ({ p with cipher := some pr.2 }, pr.1)

/-- `serverIn({buffer, next, broadcast, fail})`. -/
def serverIn (C : Crypto) (p : Preset) (buffer : List ℕ) :
    Option (Preset × SOut) :=
  if p.isHandshakeDone = false then
    if buffer.length < 37 then
      some (p, SOut.fail FailKind.len1)
    else
      let iv := buffer.take IV_LEN
      let c0 := createCipheriv p.cipherName p.key iv
      let d0 := createCipheriv p.cipherName p.key iv
      let pr := cipherUpdate C d0 (buffer.drop 32)
      let tailBuffer := pr.1
      let hmacTag := (buffer.drop 16).take 16
      let alen := tailBuffer.headD 0
      let p1 := { p with cipher := some c0, decipher := some pr.2 }
      if buffer.length ≤ 35 + alen then
        some (p1, SOut.fail FailKind.len2)
      else
        let expHmac :=
          (C.hmacSha1 p.key ((buffer.drop 32).take (3 + alen))).take HMAC_LEN
        if expHmac ≠ hmacTag then
          some (p1, SOut.fail FailKind.badHmac)
        else
          let addr := (tailBuffer.drop 1).take alen
          let port := readUInt16BE ((tailBuffer.drop (alen + 1)).take 2)
          let data := tailBuffer.drop (alen + 3)
          some (p1, SOut.bcast addr port data)
  else
    match p.decipher with
    | none => none
    | some d =>
      let pr := cipherUpdate C d buffer
      some ({ p with decipher := some pr.2 }, SOut.next pr.1)

/-- The `onConnected` closure handed out through the broadcast:
`() => { next(data); this._isHandshakeDone = true; }`. -/
def onConnected (p : Preset) (data : List ℕ) : Preset × List ℕ :=
  ({ p with isHandshakeDone := true }, data)

/-- `serverOut({buffer})` = `this.encrypt(buffer)`. -/
def serverOut (C : Crypto) (p : Preset) (buffer : List ℕ) :
    Option (Preset × List ℕ) :=
  match p.cipher with
  | none => none
  | some c =>
    let pr := cipherUpdate C c buffer
    some ({ p with cipher := some pr.2 }, pr.1)

/-- `clientIn({buffer})` = `this.decrypt(buffer)`. -/
def clientIn (C : Crypto) (p : Preset) (buffer : List ℕ) :
    Option (Preset × List ℕ) :=
  match p.decipher with
  | none => none
  | some d =>
    let pr := cipherUpdate C d buffer
    some ({ p with decipher := some pr.2 }, pr.1)

/-- The decrypted tail `decrypt(buffer.slice(32))` computed by the first
`serverIn` call on a chunk: the decipher is freshly initialized from the
chunk's first 16 bytes. -/
def serverTail (C : Crypto) (p : Preset) (buffer : List ℕ) : List ℕ :=
  (cipherUpdate C (createCipheriv p.cipherName p.key (buffer.take IV_LEN))
    (buffer.drop 32)).1

/-- The `alen = tailBuffer[0]` value the first `serverIn` call extracts. -/
def serverAlen (C : Crypto) (p : Preset) (buffer : List ℕ) : ℕ :=
  (serverTail C p buffer).headD 0

/-- The `expHmac` value the first `serverIn` call recomputes:
`hmac('sha1', key, buffer.slice(32, 35 + alen)).slice(0, 16)`. -/
def expectedTag (C : Crypto) (key buffer : List ℕ) (alen : ℕ) : List ℕ :=
  (C.hmacSha1 key ((buffer.drop 32).take (3 + alen))).take HMAC_LEN

/-- Modelled from the spec: the handshake frame as §4.4 describes its
construction, with `enc_addr = ciphertext[0 .. ciphertext.len − DATA.len]`
(the encrypted address header only) and `tag = HMAC-SHA1(k, enc_addr)[0..16]`,
emitting `IV || tag || ciphertext`.  Used to compare `clientOut` against the
spec's words. -/
def specHandshakeFrame (C : Crypto) (method : String)
    (key host port iv data : List ℕ) : List ℕ :=
  let ciphertext := (cipherUpdate C (createCipheriv method key iv)
    (numberToBuffer1 host.length ++ host ++ port ++ data)).1
  let encAddr := ciphertext.take (ciphertext.length - data.length)
  iv ++ (C.hmacSha1 key encAddr).take HMAC_LEN ++ ciphertext

/-- Forward pipeline after the handshake: each chunk goes through
`clientOut` and the resulting wire bytes through `serverIn`; collects the
data the server recovers chunk by chunk. -/
def fwdPipe (C : Crypto) :
    Preset → Preset → List (List ℕ) → Option (Preset × Preset × List (List ℕ))
  | pc, ps, [] => some (pc, ps, [])
  | pc, ps, s :: rest =>
    match clientOut C pc [] s with
    | none => none
    | some (pc1, wire) =>
      match serverIn C ps wire with
      | some (ps1, SOut.next d) =>
        match fwdPipe C pc1 ps1 rest with
        | none => none
        | some (pc2, ps2, ds) => some (pc2, ps2, d :: ds)
      | _ => none

/-- Backward pipeline: each chunk goes through `serverOut` and the result
through `clientIn`; collects the data the client recovers. -/
def bwdPipe (C : Crypto) :
    Preset → Preset → List (List ℕ) → Option (Preset × Preset × List (List ℕ))
  | ps, pc, [] => some (ps, pc, [])
  | ps, pc, t :: rest =>
    match serverOut C ps t with
    | none => none
    | some (ps1, wire) =>
      match clientIn C pc wire with
      | none => none
      | some (pc1, d) =>
        match bwdPipe C ps1 pc1 rest with
        | none => none
        | some (ps2, pc2, ds) => some (ps2, pc2, d :: ds)

/-- Feeding a sequence of chunks to `serverIn` one call after the other,
threading the preset state and collecting every observable outcome. -/
def serverInSeq (C : Crypto) (p : Preset) :
    List (List ℕ) → Preset × List SOut
  | [] => (p, [])
  | f :: fs =>
    match serverIn C p f with
    | none => (p, [])
    | some (p1, out) =>
      let r := serverInSeq C p1 fs
      (r.1, out :: r.2)

/-- One operation applied to a preset instance: the four pipeline entry
points plus an invocation of a previously handed-out `onConnected`
callback.  An operation that would throw leaves the state unchanged. -/
inductive Op where
  | opClientOut : List ℕ → List ℕ → Op
  | opServerIn : List ℕ → Op
  | opServerOut : List ℕ → Op
  | opClientIn : List ℕ → Op
  | opConnected : List ℕ → Op

/-- State transition of one operation. -/
def stepOp (C : Crypto) (p : Preset) : Op → Preset
  | Op.opClientOut iv buf =>
    match clientOut C p iv buf with
    | some pr => pr.1
    | none => p
  | Op.opServerIn buf =>
    match serverIn C p buf with
    | some pr => pr.1
    | none => p
  | Op.opServerOut buf =>
    match serverOut C p buf with
    | some pr => pr.1
    | none => p
  | Op.opClientIn buf =>
    match clientIn C p buf with
    | some pr => pr.1
    | none => p
  | Op.opConnected data => (onConnected p data).1

/-- The state `serverIn` leaves behind once it has initialized the cipher
pair from the chunk's leading 16 bytes and decrypted the tail. -/
def serverAfterInit (C : Crypto) (p : Preset) (buffer : List ℕ) : Preset :=
  { p with
    cipher := some (createCipheriv p.cipherName p.key (buffer.take IV_LEN))
    decipher := some ((cipherUpdate C
      (createCipheriv p.cipherName p.key (buffer.take IV_LEN))
      (buffer.drop 32)).2) }

/-- A concrete crypto instance used to instantiate the parametric theorems
at evaluable inputs. -/
def cryptoW : Crypto :=
  { ks := fun _ _ _ i => (i + 3) % 251
    hmacSha1 := fun _ d => List.replicate 20 (d.length % 256) }

/-- A preset state as left behind by a successful `serverIn` handshake
whose `onConnected` callback has not yet fired: ciphers are established but
`_isHandshakeDone` is still false. -/
def presetW9 : Preset :=
  { serverPreset "aes-128-cfb" [4] with
    cipher := some (createCipheriv "aes-128-cfb" [4] (List.replicate 16 9))
    decipher := some (createCipheriv "aes-128-cfb" [4] (List.replicate 16 9)) }

/-- The values taken by `_isHandshakeDone` along a sequence of operations,
starting state included. -/
def doneTrace (C : Crypto) (p : Preset) : List Op → List Bool
  | [] => [p.isHandshakeDone]
  | op :: ops => p.isHandshakeDone :: doneTrace C (stepOp C p op) ops

end Blinksocks

namespace Bootstrap

/-- `BOOTSTRAP_TYPE_SERVER` from bin/bootstrap.js. -/
def BOOTSTRAP_TYPE_SERVER : ℕ := 1

/-- JavaScript `parseInt(s, 10)`; `none` models NaN.  Only plain decimal
strings are modelled, which is all the claims touch. -/
def parseIntJS (s : String) : Option ℕ := s.toNat?

/-- The commander option object fed to `obtainConfig`: CLI flags plus the
fields (`servers`, `presets`, `key`) that only a config file normally
supplies, hence optional. -/
structure Options where
  config : String
  host : String
  port : String
  key : Option String
  servers : Option (List String)
  presets : Option (List String)
  redirect : String
  logLevel : String
  timeout : String
  quiet : Bool
  watch : Bool
  profile : Bool

/-- A parsed config file (json or required .js module); every field may be
absent.  `Object.assign` copies the fields that are present. -/
structure ConfigJson where
  host : Option String
  port : Option ℕ
  servers : Option (List String)
  key : Option String
  presets : Option (List String)
  redirect : Option String
  log_level : Option String
  timeout : Option ℕ
  watch : Option Bool
  profile : Option Bool

/-- The raw config object `obtainConfig` assembles and returns. -/
structure Config where
  host : String
  port : Option ℕ
  servers : Option (List String)
  key : Option String
  presets : Option (List String)
  redirect : String
  log_level : String
  timeout : Option ℕ
  watch : Bool
  profile : Bool
deriving DecidableEq

/-- The `// assemble` step of `obtainConfig`, including the pre-processing
(`parseInt` of port/timeout, quiet forcing log level to error). -/
def assemble (o : Options) : Config :=
  { host := o.host
    port := parseIntJS o.port
    servers := o.servers
    key := o.key
    presets := o.presets
    redirect := o.redirect
    log_level := if o.quiet then "error" else o.logLevel
    timeout := parseIntJS o.timeout
    watch := o.watch
    profile := o.profile }

/-- `Object.assign(config, json)`: every field present in the file
overrides the CLI value. -/
def mergeJson (c : Config) (j : ConfigJson) : Config :=
  { host := j.host.getD c.host
    port := match j.port with | some n => some n | none => c.port
    servers := match j.servers with | some l => some l | none => c.servers
    key := match j.key with | some k => some k | none => c.key
    presets := match j.presets with | some l => some l | none => c.presets
    redirect := j.redirect.getD c.redirect
    log_level := j.log_level.getD c.log_level
    timeout := match j.timeout with | some n => some n | none => c.timeout
    watch := j.watch.getD c.watch
    profile := j.profile.getD c.profile }

/-- The config after assembling and (when a file was given) merging, right
before the `/// post-process` step. -/
def mergedConfig (o : Options) (j : Option ConfigJson) : Config :=
  match j with
  | none => assemble o
  | some jj => mergeJson (assemble o) jj

/-- The predicate of the `config.servers.filter((server) => server[0] !== '-')`
call: `server[0]` is `undefined` for the empty string, which also differs
from the character. -/
def serverEnabled (s : String) : Bool := s.data.head? != some '-'

/-- `obtainConfig(type, options)` from bin/bootstrap.js with the config
file contents (read through `fs`/`require`) made explicit; `none` models
the TypeError thrown when a client-role config carries no `servers`
field. -/
def obtainConfig (type : ℕ) (o : Options) (j : Option ConfigJson) :
    Option Config :=
  let config := mergedConfig o j
  if type = BOOTSTRAP_TYPE_SERVER then
    some { config with servers := none }
  else
    match config.servers with
    | none => none
    | some l => some { config with servers := some (l.filter serverEnabled) }

end Bootstrap

namespace Blinksocks

lemma length_ksSeg (C : Crypto) (c : CState) (n : ℕ) : (ksSeg C c n).length = n := by
  simp [ksSeg]

lemma length_cipherUpdate (C : Crypto) (c : CState) (buf : List ℕ) :
    ((cipherUpdate C c buf).1).length = buf.length := by
  simp [cipherUpdate, length_ksSeg]

lemma cipherUpdate_snd (C : Crypto) (c : CState) (buf : List ℕ) :
    (cipherUpdate C c buf).2 = { c with pos := c.pos + buf.length } := rfl

lemma zipWith_xor_cancel :
    ∀ (l s : List ℕ), l.length ≤ s.length →
      List.zipWith (fun a b => a ^^^ b)
        (List.zipWith (fun a b => a ^^^ b) l s) s = l := by
  intro l
  induction l with
  | nil => intro s _; simp
  | cons x xs ih =>
    intro s hs
    cases s with
    | nil => simp at hs
    | cons y ys =>
      simp only [List.zipWith_cons_cons]
      have hx : x ^^^ y ^^^ y = x := by
        rw [Nat.xor_assoc, Nat.xor_self, Nat.xor_zero]
      rw [hx, ih ys (by simpa using hs)]

/-- Deciphering with a cipher state equal to the one that enciphered
recovers the plaintext. -/
lemma cipherUpdate_inverse (C : Crypto) (c : CState) (buf : List ℕ) :
    (cipherUpdate C c ((cipherUpdate C c buf).1)).1 = buf := by
  have hlen := length_cipherUpdate C c buf
  simp only [cipherUpdate] at hlen ⊢
  rw [hlen]
  exact zipWith_xor_cancel _ _ (by simp [length_ksSeg, cipherUpdate])

lemma serverIn_len1 (C : Crypto) (p : Preset) (buffer : List ℕ)
    (hdone : p.isHandshakeDone = false) (hlen : buffer.length < 37) :
    serverIn C p buffer = some (p, SOut.fail FailKind.len1) := by
  simp [serverIn, hdone, hlen]

/-- Splitting a wire frame `iv ++ tag ++ rest` at the protocol offsets. -/
lemma split32 (iv tag rest : List ℕ) (hiv : iv.length = 16)
    (htag : tag.length = 16) :
    (iv ++ tag ++ rest).take 16 = iv ∧
    ((iv ++ tag ++ rest).drop 16).take 16 = tag ∧
    (iv ++ tag ++ rest).drop 32 = rest ∧
    (iv ++ tag ++ rest).length = 32 + rest.length := by
  have h16 : (iv ++ tag ++ rest).drop 16 = tag ++ rest := by
    rw [List.append_assoc]
    exact List.drop_left' hiv
  refine ⟨?_, ?_, ?_, ?_⟩
  · rw [List.append_assoc]
    exact List.take_left' hiv
  · rw [h16]
    exact List.take_left' htag
  · rw [show (32 : ℕ) = 16 + 16 from rfl, ← List.drop_drop, h16]
    exact List.drop_left' htag
  · simp [hiv, htag]
    omega

/-- Splitting the handshake plaintext `ALEN || HOST || PORT || DATA` at the
offsets `serverIn` reads from. -/
lemma plain_parts (host s0 : List ℕ) (hp0 hp1 : ℕ) (h255 : host.length ≤ 255) :
    (numberToBuffer1 host.length ++ host ++ [hp0, hp1] ++ s0).headD 0 =
      host.length ∧
    ((numberToBuffer1 host.length ++ host ++ [hp0, hp1] ++ s0).drop 1).take
      host.length = host ∧
    ((numberToBuffer1 host.length ++ host ++ [hp0, hp1] ++ s0).drop
      (host.length + 1)).take 2 = [hp0, hp1] ∧
    (numberToBuffer1 host.length ++ host ++ [hp0, hp1] ++ s0).drop
      (host.length + 3) = s0 ∧
    (numberToBuffer1 host.length ++ host ++ [hp0, hp1] ++ s0).length =
      3 + host.length + s0.length := by
  have hmod : host.length % 256 = host.length := Nat.mod_eq_of_lt (by omega)
  have hform : numberToBuffer1 host.length ++ host ++ [hp0, hp1] ++ s0 =
      host.length :: (host ++ ([hp0, hp1] ++ s0)) := by
    simp [numberToBuffer1, hmod]
  rw [hform]
  refine ⟨rfl, ?_, ?_, ?_, ?_⟩
  · simp only [List.drop_succ_cons, List.drop_zero]
    exact List.take_left _ _
  · simp only [List.drop_succ_cons]
    rw [List.drop_left]
    exact List.take_left' rfl
  · rw [show host.length + 3 = (host.length + 2) + 1 from rfl,
      List.drop_succ_cons, ← List.append_assoc]
    exact List.drop_left' (by simp)
  · simp
    omega

/-- On a genuine frame `iv ++ tag ++ StreamEncrypt(plain)` the server's
freshly initialized decipher recovers `plain`. -/
lemma serverTail_decrypt (C : Crypto) (method : String)
    (key iv tag plain : List ℕ) (hiv : iv.length = 16) (htag : tag.length = 16) :
    serverTail C (serverPreset method key)
      (iv ++ tag ++ (cipherUpdate C (createCipheriv method key iv) plain).1) =
      plain := by
  obtain ⟨ht16, _, hd32, _⟩ :=
    split32 iv tag (cipherUpdate C (createCipheriv method key iv) plain).1 hiv htag
  simp only [serverTail, serverPreset, IV_LEN]
  rw [ht16, hd32, cipherUpdate_inverse]

lemma clientOut_post (C : Crypto) (p : Preset) (iv buf : List ℕ) (c : CState)
    (hdone : p.isHandshakeDone = true) (hc : p.cipher = some c) :
    clientOut C p iv buf =
      some ({ p with cipher := some (cipherUpdate C c buf).2 },
        (cipherUpdate C c buf).1) := by
  simp [clientOut, hdone, hc]

lemma serverIn_post (C : Crypto) (p : Preset) (buf : List ℕ) (d : CState)
    (hdone : p.isHandshakeDone = true) (hd : p.decipher = some d) :
    serverIn C p buf =
      some ({ p with decipher := some (cipherUpdate C d buf).2 },
        SOut.next (cipherUpdate C d buf).1) := by
  simp [serverIn, hdone, hd]

lemma serverOut_eq (C : Crypto) (p : Preset) (buf : List ℕ) (c : CState)
    (hc : p.cipher = some c) :
    serverOut C p buf =
      some ({ p with cipher := some (cipherUpdate C c buf).2 },
        (cipherUpdate C c buf).1) := by
  simp [serverOut, hc]

lemma clientIn_eq (C : Crypto) (p : Preset) (buf : List ℕ) (d : CState)
    (hd : p.decipher = some d) :
    clientIn C p buf =
      some ({ p with decipher := some (cipherUpdate C d buf).2 },
        (cipherUpdate C d buf).1) := by
  simp [clientIn, hd]

/-- After the handshake, pushing any chunk sequence through
`clientOut` then `serverIn` recovers every chunk unchanged, as long as the
client cipher and the server decipher hold equal states. -/
lemma fwdPipe_spec (C : Crypto) :
    ∀ (chunks : List (List ℕ)) (pc ps : Preset) (c : CState),
      pc.isHandshakeDone = true → ps.isHandshakeDone = true →
      pc.cipher = some c → ps.decipher = some c →
      ∃ cF, fwdPipe C pc ps chunks =
        some ({ pc with cipher := some cF }, { ps with decipher := some cF },
          chunks) := by
  intro chunks
  induction chunks with
  | nil =>
    intro pc ps c _ _ hc hd
    refine ⟨c, ?_⟩
    have e1 : { pc with cipher := some c } = pc := by rw [← hc]
    have e2 : { ps with decipher := some c } = ps := by rw [← hd]
    rw [e1, e2]
    rfl
  | cons s rest ih =>
    intro pc ps c hpc hps hc hd
    have hco := clientOut_post C pc [] s c hpc hc
    have hsi := serverIn_post C ps ((cipherUpdate C c s).1) c hps hd
    have hinv : (cipherUpdate C c ((cipherUpdate C c s).1)).1 = s :=
      cipherUpdate_inverse C c s
    have hsnd : (cipherUpdate C c ((cipherUpdate C c s).1)).2 =
        (cipherUpdate C c s).2 := by
      simp [cipherUpdate_snd, length_cipherUpdate]
    rw [hsnd, hinv] at hsi
    obtain ⟨cF, hF⟩ := ih { pc with cipher := some (cipherUpdate C c s).2 }
      { ps with decipher := some (cipherUpdate C c s).2 }
      ((cipherUpdate C c s).2) (by simp [hpc]) (by simp [hps]) (by simp) (by simp)
    refine ⟨cF, ?_⟩
    simp only [fwdPipe, hco, hsi, hF]

/-- Backward direction: `serverOut` then `clientIn` with equal cipher
states is the identity on every chunk sequence. -/
lemma bwdPipe_spec (C : Crypto) :
    ∀ (chunks : List (List ℕ)) (ps pc : Preset) (c : CState),
      ps.cipher = some c → pc.decipher = some c →
      ∃ cF, bwdPipe C ps pc chunks =
        some ({ ps with cipher := some cF }, { pc with decipher := some cF },
          chunks) := by
  intro chunks
  induction chunks with
  | nil =>
    intro ps pc c hc hd
    refine ⟨c, ?_⟩
    have e1 : { ps with cipher := some c } = ps := by rw [← hc]
    have e2 : { pc with decipher := some c } = pc := by rw [← hd]
    rw [e1, e2]
    rfl
  | cons t rest ih =>
    intro ps pc c hc hd
    have hso := serverOut_eq C ps t c hc
    have hci := clientIn_eq C pc ((cipherUpdate C c t).1) c hd
    have hinv : (cipherUpdate C c ((cipherUpdate C c t).1)).1 = t :=
      cipherUpdate_inverse C c t
    have hsnd : (cipherUpdate C c ((cipherUpdate C c t).1)).2 =
        (cipherUpdate C c t).2 := by
      simp [cipherUpdate_snd, length_cipherUpdate]
    rw [hsnd, hinv] at hci
    obtain ⟨cF, hF⟩ := ih { ps with cipher := some (cipherUpdate C c t).2 }
      { pc with decipher := some (cipherUpdate C c t).2 }
      ((cipherUpdate C c t).2) (by simp) (by simp)
    refine ⟨cF, ?_⟩
    simp only [bwdPipe, hso, hci, hF]

lemma stepOp_done_mono (C : Crypto) (p : Preset) (op : Op)
    (h : p.isHandshakeDone = true) : (stepOp C p op).isHandshakeDone = true := by
  cases op with
  | opClientOut iv buf =>
    simp only [stepOp, clientOut, h]
    cases hc : p.cipher <;> simp [hc, h]
  | opServerIn buf =>
    simp only [stepOp, serverIn, h]
    cases hd : p.decipher <;> simp [hd, h]
  | opServerOut buf =>
    simp only [stepOp, serverOut]
    cases hc : p.cipher <;> simp [hc, h]
  | opClientIn buf =>
    simp only [stepOp, clientIn]
    cases hd : p.decipher <;> simp [hd, h]
  | opConnected data => simp [stepOp, onConnected]

lemma doneTrace_true (C : Crypto) :
    ∀ (ops : List Op) (p : Preset), p.isHandshakeDone = true →
      doneTrace C p ops = List.replicate (ops.length + 1) true := by
  intro ops
  induction ops with
  | nil => intro p h; simp [doneTrace, h]
  | cons op ops ih =>
    intro p h
    simp only [doneTrace, h, List.length_cons]
    rw [ih _ (stepOp_done_mono C p op h)]
    simp [List.replicate_succ]

lemma doneTrace_shape (C : Crypto) :
    ∀ (ops : List Op) (p : Preset),
      ∃ a b, doneTrace C p ops = List.replicate a false ++ List.replicate b true := by
  intro ops
  induction ops with
  | nil =>
    intro p
    cases h : p.isHandshakeDone with
    | false => exact ⟨1, 0, by simp [doneTrace, h]⟩
    | true => exact ⟨0, 1, by simp [doneTrace, h]⟩
  | cons op ops ih =>
    intro p
    cases h : p.isHandshakeDone with
    | false =>
      obtain ⟨a, b, hab⟩ := ih (stepOp C p op)
      exact ⟨a + 1, b, by simp [doneTrace, h, hab, List.replicate_succ]⟩
    | true =>
      refine ⟨0, ops.length + 2, ?_⟩
      simp only [doneTrace, h, doneTrace_true C ops _ (stepOp_done_mono C p op h)]
      simp [List.replicate_succ]

lemma serverIn_len2 (C : Crypto) (p : Preset) (buffer : List ℕ)
    (hdone : p.isHandshakeDone = false) (h37 : ¬ buffer.length < 37)
    (hlen2 : buffer.length ≤ 35 + serverAlen C p buffer) :
    serverIn C p buffer =
      some (serverAfterInit C p buffer, SOut.fail FailKind.len2) := by
  simp only [serverAlen, serverTail] at hlen2
  simp only [serverIn, serverAfterInit, hdone, if_neg h37, if_pos hlen2, if_true]

lemma serverIn_badHmac (C : Crypto) (p : Preset) (buffer : List ℕ)
    (hdone : p.isHandshakeDone = false) (h37 : ¬ buffer.length < 37)
    (hlen2 : ¬ buffer.length ≤ 35 + serverAlen C p buffer)
    (htag : expectedTag C p.key buffer (serverAlen C p buffer) ≠
      (buffer.drop 16).take 16) :
    serverIn C p buffer =
      some (serverAfterInit C p buffer, SOut.fail FailKind.badHmac) := by
  simp only [serverAlen, serverTail] at hlen2
  simp only [expectedTag, serverAlen, serverTail] at htag
  simp only [serverIn, serverAfterInit, hdone, if_neg h37, if_neg hlen2,
    if_pos htag, if_true]

lemma serverIn_success (C : Crypto) (p : Preset) (buffer : List ℕ)
    (hdone : p.isHandshakeDone = false) (h37 : ¬ buffer.length < 37)
    (hlen2 : ¬ buffer.length ≤ 35 + serverAlen C p buffer)
    (htag : expectedTag C p.key buffer (serverAlen C p buffer) =
      (buffer.drop 16).take 16) :
    serverIn C p buffer =
      some (serverAfterInit C p buffer,
        SOut.bcast ((serverTail C p buffer).drop 1 |>.take (serverAlen C p buffer))
          (readUInt16BE
            (((serverTail C p buffer).drop (serverAlen C p buffer + 1)).take 2))
          ((serverTail C p buffer).drop (serverAlen C p buffer + 3))) := by
  have htag' : ¬ (expectedTag C p.key buffer (serverAlen C p buffer) ≠
      (buffer.drop 16).take 16) := fun h => h htag
  simp only [serverAlen, serverTail] at hlen2
  simp only [expectedTag, serverAlen, serverTail] at htag'
  simp only [serverIn, serverAfterInit, serverTail, serverAlen, hdone,
    if_neg h37, if_neg hlen2, if_neg htag', if_true]

/-- Claim C7: for every preset instance and every sequence of
clientOut/serverIn/serverOut/clientIn operations including invocations of
the handed-out onConnected callbacks, the `_isHandshakeDone` flag starts
false, rises false→true at most once, and never falls back: the trace of
its values is a block of `false` followed by a block of `true`. -/
theorem c7_handshake_done_monotone (C : Crypto) (p : Preset) (ops : List Op)
    (hp : p.isHandshakeDone = false) :
    (doneTrace C p ops).head? = some false ∧
    ∃ a b, doneTrace C p ops = List.replicate a false ++ List.replicate b true := by
  constructor
  · cases ops <;> simp [doneTrace, hp]
  · exact doneTrace_shape C ops p

/-- Claim C6: a first `serverIn` chunk below 37 bytes makes the preset
emit the `length_1` fail event, leaves the preset state untouched (no
cipher or decipher is initialized), and broadcasts nothing. -/
theorem c6_short_handshake (C : Crypto) (p : Preset) (buffer : List ℕ)
    (hdone : p.isHandshakeDone = false) (hlen : buffer.length < 37) :
    serverIn C p buffer = some (p, SOut.fail FailKind.len1) := by
  simp [serverIn, hdone, hlen]

/-- Claim C3: on a first chunk that passes both length checks, `serverIn`
recomputes the truncated HMAC over `chunk[32 .. 35+ALEN]` and emits the
bad-HMAC fail event exactly when it differs from `chunk[16..32]`; when the
two agree it broadcasts `CONNECT_TO_DST` instead. -/
theorem c3_hmac_rejection (C : Crypto) (p : Preset) (buffer : List ℕ)
    (hdone : p.isHandshakeDone = false) (h37 : ¬ buffer.length < 37)
    (hlen2 : ¬ buffer.length ≤ 35 + serverAlen C p buffer) :
    ∃ p1 out, serverIn C p buffer = some (p1, out) ∧
      ((out = SOut.fail FailKind.badHmac) ↔
        expectedTag C p.key buffer (serverAlen C p buffer) ≠
          (buffer.drop 16).take 16) ∧
      (expectedTag C p.key buffer (serverAlen C p buffer) =
          (buffer.drop 16).take 16 →
        ∃ a pt d, out = SOut.bcast a pt d) := by
  by_cases htag : expectedTag C p.key buffer (serverAlen C p buffer) =
      (buffer.drop 16).take 16
  · refine ⟨_, _, serverIn_success C p buffer hdone h37 hlen2 htag, ?_, ?_⟩
    · simp [htag]
    · exact fun _ => ⟨_, _, _, rfl⟩
  · refine ⟨_, _, serverIn_badHmac C p buffer hdone h37 hlen2 htag, ?_, ?_⟩
    · simp [htag]
    · exact fun h => absurd h htag

/-- Claim C5 (amended): a first chunk of at least 37 bytes whose decrypted
tail begins with `ALEN = 0` always passes the post-ALEN length check; it is
rejected exactly when the recomputed HMAC over `chunk[32..35]` differs from
the stored tag, and with a matching tag the preset broadcasts
`CONNECT_TO_DST` with an empty host instead of rejecting. -/
theorem c5_alen_zero (C : Crypto) (p : Preset) (buffer : List ℕ)
    (hdone : p.isHandshakeDone = false) (h37 : ¬ buffer.length < 37)
    (h0 : serverAlen C p buffer = 0) :
    ∃ p1 out, serverIn C p buffer = some (p1, out) ∧
      ((out = SOut.fail FailKind.badHmac) ↔
        expectedTag C p.key buffer 0 ≠ (buffer.drop 16).take 16) ∧
      (expectedTag C p.key buffer 0 = (buffer.drop 16).take 16 →
        out = SOut.bcast []
          (readUInt16BE (((serverTail C p buffer).drop 1).take 2))
          ((serverTail C p buffer).drop 3)) := by
  have hlen2 : ¬ buffer.length ≤ 35 + serverAlen C p buffer := by
    rw [h0]; omega
  by_cases htag : expectedTag C p.key buffer 0 = (buffer.drop 16).take 16
  · refine ⟨_, _, serverIn_success C p buffer hdone h37 hlen2 (by rwa [h0]), ?_, ?_⟩
    · simp [htag]
    · intro _
      simp [h0]
  · refine ⟨_, _, serverIn_badHmac C p buffer hdone h37 hlen2 (by rwa [h0]), ?_, ?_⟩
    · simp [htag]
    · exact fun h => absurd h htag

/-- Claim C9: while `_isHandshakeDone` is false — in particular after a
`CONNECT_TO_DST` broadcast whose `onConnected` callback has not yet run —
`serverIn` treats its chunk as a fresh handshake frame: the previously
established cipher and decipher are ignored and overwritten by a pair
freshly initialized from the chunk's first 16 bytes, and the call either
fails or broadcasts another `CONNECT_TO_DST`. -/
theorem c9_rehandshake (C : Crypto) (p : Preset) (buffer : List ℕ)
    (X Y : Option CState)
    (hdone : p.isHandshakeDone = false) (h37 : ¬ buffer.length < 37) :
    serverIn C p buffer =
      serverIn C { p with cipher := X, decipher := Y } buffer ∧
    ∃ p1 out, serverIn C p buffer = some (p1, out) ∧
      p1.cipher = some (createCipheriv p.cipherName p.key (buffer.take IV_LEN)) ∧
      p1.decipher = some { name := p.cipherName, key := p.key,
                           iv := buffer.take IV_LEN,
                           pos := buffer.length - 32 } ∧
      ((∃ k, out = SOut.fail k) ∨ ∃ a pt d, out = SOut.bcast a pt d) := by
  have hstate : ∀ q : Preset, q.isHandshakeDone = false → q.cipherName = p.cipherName →
      q.key = p.key →
      (serverAfterInit C q buffer).cipher =
        some (createCipheriv p.cipherName p.key (buffer.take IV_LEN)) ∧
      (serverAfterInit C q buffer).decipher =
        some { name := p.cipherName, key := p.key,
               iv := buffer.take IV_LEN, pos := buffer.length - 32 } := by
    intro q _ hn hk
    constructor
    · simp [serverAfterInit, hn, hk]
    · simp [serverAfterInit, cipherUpdate_snd, createCipheriv, hn, hk]
  by_cases hlen2 : buffer.length ≤ 35 + serverAlen C p buffer
  · refine ⟨?_, _, _, serverIn_len2 C p buffer hdone h37 hlen2, ?_, ?_, Or.inl ⟨_, rfl⟩⟩
    · have h2 := serverIn_len2 C { p with cipher := X, decipher := Y } buffer
        hdone h37 hlen2
      rw [serverIn_len2 C p buffer hdone h37 hlen2, h2]
      rfl
    · exact (hstate p hdone rfl rfl).1
    · exact (hstate p hdone rfl rfl).2
  · by_cases htag : expectedTag C p.key buffer (serverAlen C p buffer) =
        (buffer.drop 16).take 16
    · refine ⟨?_, _, _, serverIn_success C p buffer hdone h37 hlen2 htag, ?_, ?_,
        Or.inr ⟨_, _, _, rfl⟩⟩
      · have h2 := serverIn_success C { p with cipher := X, decipher := Y } buffer
          hdone h37 hlen2 htag
        rw [serverIn_success C p buffer hdone h37 hlen2 htag, h2]
        rfl
      · exact (hstate p hdone rfl rfl).1
      · exact (hstate p hdone rfl rfl).2
    · refine ⟨?_, _, _, serverIn_badHmac C p buffer hdone h37 hlen2 htag, ?_, ?_,
        Or.inl ⟨_, rfl⟩⟩
      · have h2 := serverIn_badHmac C { p with cipher := X, decipher := Y } buffer
          hdone h37 hlen2 htag
        rw [serverIn_badHmac C p buffer hdone h37 hlen2 htag, h2]
        rfl
      · exact (hstate p hdone rfl rfl).1
      · exact (hstate p hdone rfl rfl).2

/-- Witness for C6: sending exactly 36 bytes as the first frame triggers
the short-handshake failure. -/
theorem c6_short_handshake_witness :
    serverIn cryptoW (serverPreset "aes-256-ctr" [9, 9]) (List.replicate 36 0) =
      some (serverPreset "aes-256-ctr" [9, 9], SOut.fail FailKind.len1) :=
  c6_short_handshake cryptoW _ _ rfl (by decide)

/-- Witness for C7: a concrete run through handshake, connection callback
and a post-handshake chunk. -/
theorem c7_handshake_done_monotone_witness :
    (doneTrace cryptoW (serverPreset "aes-256-ctr" [9, 9])
        [Op.opServerIn (List.replicate 40 0), Op.opConnected [1],
         Op.opServerIn [5, 6], Op.opServerOut [7]]).head? = some false ∧
    ∃ a b, doneTrace cryptoW (serverPreset "aes-256-ctr" [9, 9])
        [Op.opServerIn (List.replicate 40 0), Op.opConnected [1],
         Op.opServerIn [5, 6], Op.opServerOut [7]] =
      List.replicate a false ++ List.replicate b true :=
  c7_handshake_done_monotone cryptoW _ _ rfl

/-- Claim C1: full round trip of the preset pair.  The first `clientOut`
chunk becomes the handshake frame; `serverIn` recovers the destination
host, port and the first chunk from it and broadcasts them; after the
`onConnected` callback every further forward chunk decrypts back to
itself, so the concatenation of the broadcast data and the forward outputs
is the original stream; symmetrically every backward chunk survives
`serverOut` then `clientIn` unchanged. -/
theorem c1_round_trip (C : Crypto) (method : String) (key host iv s0 : List ℕ)
    (hp0 hp1 : ℕ) (rest bwd : List (List ℕ)) (hiv : iv.length = 16)
    (hH : ∀ k d, (C.hmacSha1 k d).length = 20)
    (h1 : 1 ≤ host.length) (h255 : host.length ≤ 255) (hs0 : s0 ≠ []) :
    ∃ pcA frame spA spB pcF psF psG pcG,
      clientOut C (clientPreset method key host [hp0, hp1]) iv s0 =
        some (pcA, frame) ∧
      serverIn C (serverPreset method key) frame =
        some (spA, SOut.bcast host (256 * hp0 + hp1) s0) ∧
      onConnected spA s0 = (spB, s0) ∧
      fwdPipe C pcA spB rest = some (pcF, psF, rest) ∧
      bwdPipe C psF pcF bwd = some (psG, pcG, bwd) := by
  have hs0len : 1 ≤ s0.length := List.length_pos.mpr hs0
  have hs0ne : s0.length ≠ 0 := by omega
  have pp := plain_parts host s0 hp0 hp1 h255
  have hcut : ((cipherUpdate C (createCipheriv method key iv)
      (numberToBuffer1 host.length ++ host ++ [hp0, hp1] ++ s0)).1).length -
      s0.length = 3 + host.length := by
    rw [length_cipherUpdate, pp.2.2.2.2]
    omega
  have hjs : jsSliceZeroNeg ((cipherUpdate C (createCipheriv method key iv)
      (numberToBuffer1 host.length ++ host ++ [hp0, hp1] ++ s0)).1) s0.length =
      ((cipherUpdate C (createCipheriv method key iv)
        (numberToBuffer1 host.length ++ host ++ [hp0, hp1] ++ s0)).1).take
        (3 + host.length) := by
    rw [jsSliceZeroNeg, if_neg hs0ne, hcut]
  have hclient : clientOut C (clientPreset method key host [hp0, hp1]) iv s0 =
      some ({ clientPreset method key host [hp0, hp1] with
                isHandshakeDone := true
                cipher := some ((cipherUpdate C (createCipheriv method key iv)
                  (numberToBuffer1 host.length ++ host ++ [hp0, hp1] ++ s0)).2)
                decipher := some (createCipheriv method key iv) },
            iv ++ (C.hmacSha1 key (jsSliceZeroNeg
                ((cipherUpdate C (createCipheriv method key iv)
                  (numberToBuffer1 host.length ++ host ++ [hp0, hp1] ++
                    s0)).1) s0.length)).take HMAC_LEN ++
              (cipherUpdate C (createCipheriv method key iv)
                (numberToBuffer1 host.length ++ host ++ [hp0, hp1] ++ s0)).1) :=
    rfl
  rw [hjs] at hclient
  set c0 := createCipheriv method key iv with hc0
  set plain := numberToBuffer1 host.length ++ host ++ [hp0, hp1] ++ s0 with hplain
  set encBuf := (cipherUpdate C c0 plain).1 with hencBuf
  set tag := (C.hmacSha1 key (encBuf.take (3 + host.length))).take HMAC_LEN
    with htag
  set frame := iv ++ tag ++ encBuf with hframe
  have hplen : plain.length = 3 + host.length + s0.length := pp.2.2.2.2
  have henclen : encBuf.length = 3 + host.length + s0.length := by
    rw [hencBuf, length_cipherUpdate]
    exact hplen
  have htlen : tag.length = 16 := by
    rw [htag]
    simp [hH, HMAC_LEN]
  obtain ⟨ht16, hd16, hd32, hflen32⟩ := split32 iv tag encBuf hiv htlen
  rw [← hframe] at ht16 hd16 hd32 hflen32
  have h37 : ¬ frame.length < 37 := by
    rw [hflen32, henclen]
    omega
  have htail : serverTail C (serverPreset method key) frame = plain :=
    serverTail_decrypt C method key iv tag plain hiv htlen
  have halen : serverAlen C (serverPreset method key) frame = host.length := by
    show (serverTail C (serverPreset method key) frame).headD 0 = host.length
    rw [htail]
    exact pp.1
  have hlen2 : ¬ frame.length ≤
      35 + serverAlen C (serverPreset method key) frame := by
    rw [halen, hflen32, henclen]
    omega
  have htagm : expectedTag C (serverPreset method key).key frame
      (serverAlen C (serverPreset method key) frame) =
      (frame.drop 16).take 16 := by
    rw [halen]
    show (C.hmacSha1 key ((frame.drop 32).take (3 + host.length))).take
      HMAC_LEN = (frame.drop 16).take 16
    rw [hd32, hd16]
  have hserver : serverIn C (serverPreset method key) frame =
      some (serverAfterInit C (serverPreset method key) frame,
        SOut.bcast host (256 * hp0 + hp1) s0) := by
    rw [serverIn_success C (serverPreset method key) frame rfl h37 hlen2 htagm,
      htail, halen, pp.2.1, pp.2.2.1, pp.2.2.2.1]
    simp [readUInt16BE]
  have hdecip : ({ serverAfterInit C (serverPreset method key) frame with
      isHandshakeDone := true } : Preset).decipher =
      some ((cipherUpdate C c0 plain).2) := by
    simp only [serverAfterInit, serverPreset, IV_LEN]
    rw [ht16, hd32]
    simp [cipherUpdate_snd, henclen, hplen]
  obtain ⟨cF, hfwd⟩ := fwdPipe_spec C rest
    ({ clientPreset method key host [hp0, hp1] with
         isHandshakeDone := true
         cipher := some ((cipherUpdate C c0 plain).2)
         decipher := some c0 })
    ({ serverAfterInit C (serverPreset method key) frame with
         isHandshakeDone := true })
    ((cipherUpdate C c0 plain).2) rfl rfl rfl hdecip
  have hpsc : ({ ({ serverAfterInit C (serverPreset method key) frame with
      isHandshakeDone := true } : Preset) with decipher := some cF }).cipher =
      some c0 := by
    simp only [serverAfterInit, serverPreset, IV_LEN]
    rw [ht16]
  obtain ⟨cG, hbwd⟩ := bwdPipe_spec C bwd
    ({ ({ serverAfterInit C (serverPreset method key) frame with
          isHandshakeDone := true } : Preset) with decipher := some cF })
    ({ ({ clientPreset method key host [hp0, hp1] with
            isHandshakeDone := true
            cipher := some ((cipherUpdate C c0 plain).2)
            decipher := some c0 } : Preset) with cipher := some cF })
    c0 hpsc rfl
  exact ⟨_, _, _, _, _, _, _, _, hclient, hserver, rfl, hfwd, hbwd⟩

/-- Witness for C1: a concrete end-to-end run with a 1-byte host, a 2-byte
first chunk, two further forward chunks and two backward chunks. -/
theorem c1_round_trip_witness :
    ∃ pcA frame spA spB pcF psF psG pcG,
      clientOut cryptoW (clientPreset "aes-256-ctr" [9] [104] [0, 80])
        (List.replicate 16 7) [1, 2] = some (pcA, frame) ∧
      serverIn cryptoW (serverPreset "aes-256-ctr" [9]) frame =
        some (spA, SOut.bcast [104] (256 * 0 + 80) [1, 2]) ∧
      onConnected spA [1, 2] = (spB, [1, 2]) ∧
      fwdPipe cryptoW pcA spB [[3], [4, 5]] = some (pcF, psF, [[3], [4, 5]]) ∧
      bwdPipe cryptoW psF pcF [[6], [7]] = some (psG, pcG, [[6], [7]]) :=
  c1_round_trip cryptoW "aes-256-ctr" [9] [104] (List.replicate 16 7) [1, 2]
    0 80 [[3], [4, 5]] [[6], [7]] (by decide) (fun k d => by simp [cryptoW])
    (by decide) (by decide) (by decide)

/-- Claim C2 (amended): `serverIn` performs no buffering: every first-call
fragment shorter than 37 bytes is rejected immediately with the length_1
fail event and leaves the preset state unchanged, so a handshake frame
delivered in fragments each shorter than 37 bytes is never processed and
no CONNECT_TO_DST is ever broadcast. -/
theorem c2_no_buffering (C : Crypto) (p : Preset) (frags : List (List ℕ))
    (hdone : p.isHandshakeDone = false)
    (hf : ∀ f ∈ frags, f.length < 37) :
    serverInSeq C p frags =
      (p, frags.map (fun _ => SOut.fail FailKind.len1)) := by
  induction frags with
  | nil => simp [serverInSeq]
  | cons f fs ih =>
    have h1 := serverIn_len1 C p f hdone (hf f (List.mem_cons_self f fs))
    have ih2 := ih (fun g hg => hf g (List.mem_cons_of_mem f hg))
    simp [serverInSeq, h1, ih2]

/-- Witness for C2 (amended): the first two reads of the S4 scenario split
(20 and 17 bytes) each fail immediately, with the preset state unchanged. -/
theorem c2_no_buffering_witness :
    serverInSeq cryptoW (serverPreset "camellia-128-cfb" [2])
        [List.replicate 20 0, List.replicate 17 0] =
      (serverPreset "camellia-128-cfb" [2],
        [List.replicate 20 0, List.replicate 17 0].map
          (fun _ => SOut.fail FailKind.len1)) :=
  c2_no_buffering cryptoW _ _ rfl (by decide)

/-- Counterexample to C2 as stated: a genuine handshake frame produced by
`clientOut` (38 bytes), delivered to `serverIn` as two fragments of 20 and
18 bytes, is not buffered: both calls fail with the length_1 event, the
handshake never succeeds and the destination data is never recovered. -/
theorem c2_counterexample :
    (clientOut cryptoW (clientPreset "aes-256-ctr" [5] [104, 105] [0, 80])
        (List.replicate 16 1) [200]).map
      (fun pr => serverInSeq cryptoW (serverPreset "aes-256-ctr" [5])
        [pr.2.take 20, pr.2.drop 20]) =
      some (serverPreset "aes-256-ctr" [5],
        [SOut.fail FailKind.len1, SOut.fail FailKind.len1]) := by
  decide

/-- Claim C4 (amended): on a nonempty first chunk DATA, the frame emitted
by `clientOut` equals the spec construction: `IV || tag || ciphertext` with
`ciphertext = StreamEncrypt(ALEN || ADDR || PORT || DATA)` and `tag` the
truncated HMAC over the encrypted address header
`ciphertext[0 .. ciphertext.len − DATA.len]`. -/
theorem c4_frame_construction (C : Crypto) (method : String)
    (key host port iv data : List ℕ) (hd : data ≠ []) :
    clientOut C (clientPreset method key host port) iv data =
      some ({ clientPreset method key host port with
                isHandshakeDone := true
                cipher := some ((cipherUpdate C (createCipheriv method key iv)
                  (numberToBuffer1 host.length ++ host ++ port ++ data)).2)
                decipher := some (createCipheriv method key iv) },
            specHandshakeFrame C method key host port iv data) := by
  have hne : data.length ≠ 0 := fun h => hd (List.length_eq_zero.mp h)
  simp [clientOut, clientPreset, specHandshakeFrame, jsSliceZeroNeg, hne,
    length_cipherUpdate]

/-- Witness for C4 (amended) at a concrete nonempty chunk. -/
theorem c4_frame_construction_witness :
    clientOut cryptoW (clientPreset "aes-256-ctr" [5] [104, 105] [0, 80])
        (List.replicate 16 1) [200] =
      some ({ clientPreset "aes-256-ctr" [5] [104, 105] [0, 80] with
                isHandshakeDone := true
                cipher := some ((cipherUpdate cryptoW
                  (createCipheriv "aes-256-ctr" [5] (List.replicate 16 1))
                  (numberToBuffer1 [104, 105].length ++ [104, 105] ++ [0, 80] ++
                    [200])).2)
                decipher := some (createCipheriv "aes-256-ctr" [5]
                  (List.replicate 16 1)) },
            specHandshakeFrame cryptoW "aes-256-ctr" [5] [104, 105] [0, 80]
              (List.replicate 16 1) [200]) :=
  c4_frame_construction cryptoW "aes-256-ctr" [5] [104, 105] [0, 80]
    (List.replicate 16 1) [200] (by decide)

/-- Counterexample to C4 as stated: with an empty first chunk DATA the code
computes the tag over `encBuf.slice(0, -0)`, the empty buffer, while the
spec formula tags the whole ciphertext (the encrypted address header), so
the emitted frame differs from the spec frame. -/
theorem c4_counterexample :
    (clientOut cryptoW (clientPreset "aes-256-ctr" [5] [104, 105] [0, 80])
        (List.replicate 16 1) []).map Prod.snd ≠
      some (specHandshakeFrame cryptoW "aes-256-ctr" [5] [104, 105] [0, 80]
        (List.replicate 16 1) []) := by
  decide

/-- Witness for C3 at a concrete first chunk that passes both length
checks. -/
theorem c3_hmac_rejection_witness :
    ∃ p1 out, serverIn cryptoW (serverPreset "aes-256-ctr" [1, 2])
        (List.replicate 40 0) = some (p1, out) ∧
      ((out = SOut.fail FailKind.badHmac) ↔
        expectedTag cryptoW (serverPreset "aes-256-ctr" [1, 2]).key
          (List.replicate 40 0)
          (serverAlen cryptoW (serverPreset "aes-256-ctr" [1, 2])
            (List.replicate 40 0)) ≠
          ((List.replicate 40 0).drop 16).take 16) ∧
      (expectedTag cryptoW (serverPreset "aes-256-ctr" [1, 2]).key
          (List.replicate 40 0)
          (serverAlen cryptoW (serverPreset "aes-256-ctr" [1, 2])
            (List.replicate 40 0)) =
          ((List.replicate 40 0).drop 16).take 16 →
        ∃ a pt d, out = SOut.bcast a pt d) :=
  c3_hmac_rejection cryptoW _ _ rfl (by decide) (by decide)

/-- Witness for C5 (amended) at a 37-byte frame whose decrypted ALEN is 0
and whose stored tag matches the recomputed one. -/
theorem c5_alen_zero_witness :
    ∃ p1 out, serverIn cryptoW (serverPreset "aes-128-ctr" [7])
        (List.replicate 16 0 ++ List.replicate 16 3 ++ [3, 4, 85, 6, 7]) =
        some (p1, out) ∧
      ((out = SOut.fail FailKind.badHmac) ↔
        expectedTag cryptoW (serverPreset "aes-128-ctr" [7]).key
          (List.replicate 16 0 ++ List.replicate 16 3 ++ [3, 4, 85, 6, 7]) 0 ≠
          ((List.replicate 16 0 ++ List.replicate 16 3 ++
            [3, 4, 85, 6, 7]).drop 16).take 16) ∧
      (expectedTag cryptoW (serverPreset "aes-128-ctr" [7]).key
          (List.replicate 16 0 ++ List.replicate 16 3 ++ [3, 4, 85, 6, 7]) 0 =
          ((List.replicate 16 0 ++ List.replicate 16 3 ++
            [3, 4, 85, 6, 7]).drop 16).take 16 →
        out = SOut.bcast []
          (readUInt16BE (((serverTail cryptoW (serverPreset "aes-128-ctr" [7])
            (List.replicate 16 0 ++ List.replicate 16 3 ++
              [3, 4, 85, 6, 7])).drop 1).take 2))
          ((serverTail cryptoW (serverPreset "aes-128-ctr" [7])
            (List.replicate 16 0 ++ List.replicate 16 3 ++
              [3, 4, 85, 6, 7])).drop 3)) :=
  c5_alen_zero cryptoW _ _ rfl (by decide) (by decide)

/-- Counterexample to C5 as stated: a first chunk whose decrypted tail
begins with ALEN = 0 but whose tag is consistent with the zero-length
address header is not rejected: `serverIn` broadcasts CONNECT_TO_DST with
an empty host. -/
theorem c5_counterexample :
    (serverIn cryptoW (serverPreset "aes-128-ctr" [7])
        (List.replicate 16 0 ++ List.replicate 16 3 ++ [3, 4, 85, 6, 7])).map
      Prod.snd = some (SOut.bcast [] 80 [0, 0]) := by
  decide

/-- Claim C10 (amended): an empty first `clientOut` chunk makes
`encBuf.slice(0, -buffer.length)` empty, so the emitted frame carries
`HMAC-SHA1(k, empty)[0..16]` as its tag and has length exactly
`35 + ALEN`; `serverIn` always rejects it — by the minimum-length check
when ALEN = 1 (the frame is 36 bytes) and by the post-ALEN length check
when ALEN ≥ 2. -/
theorem c10_empty_first_chunk (C : Crypto) (method : String)
    (key host iv : List ℕ) (hp0 hp1 : ℕ) (hiv : iv.length = 16)
    (hH : ∀ k d, (C.hmacSha1 k d).length = 20)
    (h1 : 1 ≤ host.length) (h255 : host.length ≤ 255) :
    clientOut C (clientPreset method key host [hp0, hp1]) iv [] =
      some ({ clientPreset method key host [hp0, hp1] with
                isHandshakeDone := true
                cipher := some ((cipherUpdate C (createCipheriv method key iv)
                  (numberToBuffer1 host.length ++ host ++ [hp0, hp1])).2)
                decipher := some (createCipheriv method key iv) },
            iv ++ (C.hmacSha1 key []).take HMAC_LEN ++
              (cipherUpdate C (createCipheriv method key iv)
                (numberToBuffer1 host.length ++ host ++ [hp0, hp1])).1) ∧
    (iv ++ (C.hmacSha1 key []).take HMAC_LEN ++
      (cipherUpdate C (createCipheriv method key iv)
        (numberToBuffer1 host.length ++ host ++ [hp0, hp1])).1).length =
      35 + host.length ∧
    ∃ sp1, serverIn C (serverPreset method key)
        (iv ++ (C.hmacSha1 key []).take HMAC_LEN ++
          (cipherUpdate C (createCipheriv method key iv)
            (numberToBuffer1 host.length ++ host ++ [hp0, hp1])).1) =
      some (sp1, SOut.fail
        (if host.length = 1 then FailKind.len1 else FailKind.len2)) := by
  have htlen : ((C.hmacSha1 key []).take HMAC_LEN).length = 16 := by
    simp [hH, HMAC_LEN]
  have pp := plain_parts host [] hp0 hp1 h255
  simp only [List.append_nil] at pp
  have henclen : ((cipherUpdate C (createCipheriv method key iv)
      (numberToBuffer1 host.length ++ host ++ [hp0, hp1])).1).length =
      3 + host.length := by
    rw [length_cipherUpdate]
    simp [numberToBuffer1]
    omega
  obtain ⟨ht16, hd16, hd32, hflen32⟩ := split32 iv ((C.hmacSha1 key []).take HMAC_LEN)
    ((cipherUpdate C (createCipheriv method key iv)
      (numberToBuffer1 host.length ++ host ++ [hp0, hp1])).1) hiv htlen
  have hflen : (iv ++ (C.hmacSha1 key []).take HMAC_LEN ++
      (cipherUpdate C (createCipheriv method key iv)
        (numberToBuffer1 host.length ++ host ++ [hp0, hp1])).1).length =
      35 + host.length := by
    rw [hflen32, henclen]
    omega
  refine ⟨?_, hflen, ?_⟩
  · simp [clientOut, clientPreset, jsSliceZeroNeg]
  · by_cases hc : host.length = 1
    · rw [if_pos hc]
      exact ⟨_, serverIn_len1 C _ _ rfl (by rw [hflen, hc]; omega)⟩
    · rw [if_neg hc]
      have h37 : ¬ (iv ++ (C.hmacSha1 key []).take HMAC_LEN ++
          (cipherUpdate C (createCipheriv method key iv)
            (numberToBuffer1 host.length ++ host ++ [hp0, hp1])).1).length < 37 := by
        rw [hflen]; omega
      have halen : serverAlen C (serverPreset method key)
          (iv ++ (C.hmacSha1 key []).take HMAC_LEN ++
            (cipherUpdate C (createCipheriv method key iv)
              (numberToBuffer1 host.length ++ host ++ [hp0, hp1])).1) =
          host.length := by
        rw [serverAlen,
          serverTail_decrypt C method key iv _ _ hiv htlen]
        exact pp.1
      exact ⟨_, serverIn_len2 C _ _ rfl h37 (by rw [halen, hflen])⟩

/-- Witness for C10 (amended) with a 2-byte host: the degenerate frame is
rejected by the post-ALEN length check. -/
theorem c10_empty_first_chunk_witness :
    clientOut cryptoW (clientPreset "aes-192-ctr" [3] [104, 111] [0, 80])
        (List.replicate 16 2) [] =
      some ({ clientPreset "aes-192-ctr" [3] [104, 111] [0, 80] with
                isHandshakeDone := true
                cipher := some ((cipherUpdate cryptoW
                  (createCipheriv "aes-192-ctr" [3] (List.replicate 16 2))
                  (numberToBuffer1 [104, 111].length ++ [104, 111] ++
                    [0, 80])).2)
                decipher := some (createCipheriv "aes-192-ctr" [3]
                  (List.replicate 16 2)) },
            List.replicate 16 2 ++ (cryptoW.hmacSha1 [3] []).take HMAC_LEN ++
              (cipherUpdate cryptoW
                (createCipheriv "aes-192-ctr" [3] (List.replicate 16 2))
                (numberToBuffer1 [104, 111].length ++ [104, 111] ++
                  [0, 80])).1) ∧
    (List.replicate 16 2 ++ (cryptoW.hmacSha1 [3] []).take HMAC_LEN ++
      (cipherUpdate cryptoW
        (createCipheriv "aes-192-ctr" [3] (List.replicate 16 2))
        (numberToBuffer1 [104, 111].length ++ [104, 111] ++ [0, 80])).1).length =
      35 + [104, 111].length ∧
    ∃ sp1, serverIn cryptoW (serverPreset "aes-192-ctr" [3])
        (List.replicate 16 2 ++ (cryptoW.hmacSha1 [3] []).take HMAC_LEN ++
          (cipherUpdate cryptoW
            (createCipheriv "aes-192-ctr" [3] (List.replicate 16 2))
            (numberToBuffer1 [104, 111].length ++ [104, 111] ++ [0, 80])).1) =
      some (sp1, SOut.fail
        (if [104, 111].length = 1 then FailKind.len1 else FailKind.len2)) :=
  c10_empty_first_chunk cryptoW "aes-192-ctr" [3] [104, 111]
    (List.replicate 16 2) 0 80 (by decide) (fun k d => by simp [cryptoW])
    (by decide) (by decide)

/-- Counterexample to C10 as stated: with a 1-byte host the degenerate
36-byte frame is rejected by the minimum-length check (length_1), not by
the post-ALEN length check the claim names. -/
theorem c10_counterexample :
    (clientOut cryptoW (clientPreset "aes-128-ctr" [6] [104] [0, 80])
        (List.replicate 16 2) []).bind
      (fun pr => (serverIn cryptoW (serverPreset "aes-128-ctr" [6]) pr.2).map
        Prod.snd) = some (SOut.fail FailKind.len1) ∧
    FailKind.len1 ≠ FailKind.len2 := by
  decide

/-- Witness for C9: a second `serverIn` call on a preset whose handshake
already initialized ciphers (but whose onConnected callback has not run)
behaves exactly like a fresh handshake. -/
theorem c9_rehandshake_witness :
    serverIn cryptoW presetW9 (List.replicate 37 1) =
      serverIn cryptoW { presetW9 with cipher := none, decipher := none }
        (List.replicate 37 1) ∧
    ∃ p1 out, serverIn cryptoW presetW9 (List.replicate 37 1) =
        some (p1, out) ∧
      p1.cipher = some (createCipheriv presetW9.cipherName presetW9.key
        ((List.replicate 37 1).take IV_LEN)) ∧
      p1.decipher = some { name := presetW9.cipherName, key := presetW9.key,
                           iv := (List.replicate 37 1).take IV_LEN,
                           pos := (List.replicate 37 1).length - 32 } ∧
      ((∃ k, out = SOut.fail k) ∨ ∃ a pt d, out = SOut.bcast a pt d) :=
  c9_rehandshake cryptoW presetW9 (List.replicate 37 1) none none rfl
    (by decide)

end Blinksocks

namespace Bootstrap

/-- Claim C8: for a client-role invocation the produced config's `servers`
are exactly the entries of the merged input list whose first character is
not a dash, in their original order; a server-role invocation produces a
config without `servers`. -/
theorem c8_servers_filter (type : ℕ) (o : Options) (j : Option ConfigJson)
    (L : List String) (hty : type ≠ BOOTSTRAP_TYPE_SERVER)
    (hs : (mergedConfig o j).servers = some L) :
    (∃ cfg, obtainConfig type o j = some cfg ∧
      cfg.servers = some (L.filter serverEnabled) ∧
      ∀ l, cfg.servers = some l →
        l.Sublist L ∧ ∀ s, s ∈ l ↔ s ∈ L ∧ serverEnabled s = true) ∧
    (∀ o2 j2, ∃ cfg2, obtainConfig BOOTSTRAP_TYPE_SERVER o2 j2 = some cfg2 ∧
      cfg2.servers = none) := by
  constructor
  · refine ⟨{ mergedConfig o j with servers := some (L.filter serverEnabled) },
      ?_, rfl, ?_⟩
    · simp only [obtainConfig, if_neg hty, hs]
    · intro l hl
      simp only [Option.some.injEq] at hl
      subst hl
      exact ⟨List.filter_sublist L, fun s => by simp [List.mem_filter]⟩
  · intro o2 j2
    exact ⟨{ mergedConfig o2 j2 with servers := none }, by simp [obtainConfig], rfl⟩

/-- Witness for C8 at a concrete option set, with a disabled `-`-prefixed
entry and an empty entry in the list. -/
theorem c8_servers_filter_witness :
    (∃ cfg, obtainConfig 0
        { config := "", host := "localhost", port := "1080", key := some "k",
          servers := some ["a:1", "-b:2", "", "c:3"], presets := none,
          redirect := "", logLevel := "silly", timeout := "600",
          quiet := false, watch := true, profile := false } none = some cfg ∧
      cfg.servers = some (["a:1", "-b:2", "", "c:3"].filter serverEnabled) ∧
      ∀ l, cfg.servers = some l →
        l.Sublist ["a:1", "-b:2", "", "c:3"] ∧
        ∀ s, s ∈ l ↔ s ∈ ["a:1", "-b:2", "", "c:3"] ∧ serverEnabled s = true) ∧
    (∀ o2 j2, ∃ cfg2, obtainConfig BOOTSTRAP_TYPE_SERVER o2 j2 = some cfg2 ∧
      cfg2.servers = none) :=
  c8_servers_filter 0 _ none ["a:1", "-b:2", "", "c:3"] (by decide) rfl

end Bootstrap
